import Mathlib

/-!
Verification of `camera_watchdog.py`: a shallow embedding of its operations
(configuration parsing, bus-id extraction, the camera-map build loop with
its identity cache, the existence check, the rebind actuator and the
top-level monitoring entry) together with theorems settling the spec claims.

OS interaction (filesystem probes, the `udevadm` query, configparser's
already-parsed section contents, the loaded cache file) is modelled as an
explicit environment `Env`; the functions below mirror the Python source
line by line over that environment.
-/

namespace CameraWatchdog

/-- Python dict of strings, as an insertion-ordered association list. -/
abbrev Dict := List (String × String)

/-- `d.get(k)` / `d[k]` lookup: first matching key. -/
def Dict.get? : Dict → String → Option String
  | [], _ => none
  | (k, v) :: rest, key => if k = key then some v else Dict.get? rest key

/-- `d[k] = v`: replace the value in place when the key is present,
otherwise append the new pair (Python dicts keep insertion order). -/
def Dict.insert : Dict → String → String → Dict
  | [], key, val => [(key, val)]
  | (k, v) :: rest, key, val =>
      if k = key then (key, val) :: rest else (k, v) :: Dict.insert rest key val

/-- A character of the class `[\d.]` in the bus-id pattern. -/
def isDotDigit (c : Char) : Bool := c.isDigit || c = '.'

/-- `re.search(r"(\d+-[\d.]+:\d+\.\d+)", path)` tried at one position:
the greedy match of the pattern starting exactly here.  Every character
class in the pattern excludes the literal that follows it, so the greedy
left-to-right match without backtracking is exactly Python's semantics. -/
def matchBusIdAt (s : List Char) : Option (List Char) :=
  let d1 := s.takeWhile Char.isDigit
  let r1 := s.dropWhile Char.isDigit
  if d1.isEmpty then none else
  match r1 with
  | '-' :: r2 =>
    let c := r2.takeWhile isDotDigit
    let r3 := r2.dropWhile isDotDigit
    if c.isEmpty then none else
    match r3 with
    | ':' :: r4 =>
      let d2 := r4.takeWhile Char.isDigit
      let r5 := r4.dropWhile Char.isDigit
      if d2.isEmpty then none else
      match r5 with
      | '.' :: r6 =>
        let d3 := r6.takeWhile Char.isDigit
        if d3.isEmpty then none else
        some (d1 ++ '-' :: c ++ ':' :: d2 ++ '.' :: d3)
      | _ => none
    | _ => none
  | _ => none

/-- `re.search`: try the pattern matcher at each position, leftmost
first, and return its first result. -/
def searchWith (f : List Char → Option (List Char)) : List Char → Option (List Char)
  | [] => none
  | c :: rest =>
    match f (c :: rest) with
    | some m => some m
    | none => searchWith f rest

/-- `re.search` of the bus-id pattern. -/
def searchBusIdL : List Char → Option (List Char) := searchWith matchBusIdAt

/-- The ASCII characters Python's `\s` matches. -/
def pySpace (c : Char) : Bool :=
  c = ' ' || c = '\t' || c = '\n' || c = '\r' || c = '\x0b' || c = '\x0c'

/-- A character of the capture class `[^\s!]` in `device=([^\s!]+)`. -/
def isTokChar (c : Char) : Bool := !pySpace c && c != '!'

/-- The literal `device=` of the pattern, as characters. -/
def devEq : List Char := ['d', 'e', 'v', 'i', 'c', 'e', '=']

/-- Python's `key.startswith("camera")`. -/
def startsWithCamera (k : String) : Bool := "camera".toList.isPrefixOf k.toList

/-- Python's `str.strip()`: whitespace removed from both ends. -/
def stripChars (l : List Char) : List Char :=
  ((l.dropWhile pySpace).reverse.dropWhile pySpace).reverse

/-- `re.search(r"device=([^\s!]+)", value)` tried at one position:
the literal `device=` followed by the greedy nonempty run of `[^\s!]`. -/
def matchDeviceAt (s : List Char) : Option (List Char) :=
  if devEq.isPrefixOf s then
    let p := (s.drop 7).takeWhile isTokChar
    if p.isEmpty then none else some p
  else none

/-- `re.search` of the device pattern, returning the capture group. -/
def searchDeviceL : List Char → Option (List Char) := searchWith matchDeviceAt

/-- The parsed configuration source handed to `parse_camera_devices`:
`Except.error` when reading/parsing raised, otherwise the `[plugin]`
section's key/value entries in order (`none` when the section is absent). -/
abbrev IniSource := Except Unit (Option (List (String × String)))

/-- `parse_camera_devices`: over the `[plugin]` entries, any key starting
with `camera` is a candidate; its value's `device=<path>` capture is
appended.  Any exception yields the empty list. -/
def parse_camera_devices (cfg : IniSource) : List String :=
  match cfg with
  | Except.error _ => []
  | Except.ok none => []
  | Except.ok (some entries) =>
      entries.foldl (fun devices kv =>
        if startsWithCamera kv.1 then
          match searchDeviceL kv.2.toList with
          | some p => devices ++ [String.mk p]
          | none => devices
        else devices) []

/-- The OS state `camera_watchdog.py` observes during one build:
the configuration source, the cache loaded by `load_cache`, the
filesystem probes used by `device_exists`, and the `udevadm` canonical
path (`none` models a failed query, i.e. `CalledProcessError`). -/
structure Env where
  cfg : IniSource
  cache0 : Dict
  path_present : String → Bool
  islink : String → Bool
  realpath : String → String
  stat_ok : String → Bool
  udev_out : String → Option String

/-- `device_exists`: the path must exist; a symlink's resolved target must
exist; the final `os.stat` probe must succeed.  Any OS error is a `false`
(`stat_ok` already folds `OSError` into its boolean). -/
def device_exists (env : Env) (device_path : String) : Bool :=
  if !env.path_present device_path then false
  else if env.islink device_path && !env.path_present (env.realpath device_path) then false
  else env.stat_ok device_path

/-- `get_bus_id`: run the `udevadm` query; on success strip the output and
search it for the bus-id pattern; a failed query or no match is `none`. -/
def get_bus_id (env : Env) (device_path : String) : Option String :=
  match env.udev_out device_path with
  | none => none
  | some out => (searchBusIdL (stripChars out.toList)).map fun cs => String.mk cs

/-- The loop state of `build_camera_map`: the map and cache dicts, the
`cache_updated` flag, and the trace of devices attempted so far. -/
structure BState where
  camera_map : Dict
  cache : Dict
  cache_updated : Bool
  attempts : List String

/-- One iteration of the `for device in devices` loop of `build_camera_map`. -/
def resolveStep (env : Env) (s : BState) (device : String) : BState :=
  let s := { s with attempts := s.attempts ++ [device] }
  if device_exists env device then
    match get_bus_id env device with
    | some b =>
        let s := { s with camera_map := Dict.insert s.camera_map device b }
        if Dict.get? s.cache device ≠ some b then
          { s with cache := Dict.insert s.cache device b, cache_updated := true }
        else s
    | none => s
  else
    match Dict.get? s.cache device with
    | some b => { s with camera_map := Dict.insert s.camera_map device b }
    | none => s

/-- `build_camera_map` up to its final save: parse the devices, load the
cache, and fold the resolve loop over the devices. -/
def build_camera_map (env : Env) : BState :=
  (parse_camera_devices env.cfg).foldl (resolveStep env) ⟨[], env.cache0, false, []⟩

/-- `save_cache`: the full mapping is persisted, overwriting prior
contents; the persisted content is the mapping itself. -/
def save_cache (cache : Dict) : Dict := cache

/-- The cache contents written by `build_camera_map`: one `save_cache`
call when `cache_updated` was set, none otherwise. -/
def build_saves (env : Env) : List Dict :=
  let r := build_camera_map env
  if r.cache_updated then [save_cache r.cache] else []

/-- What the monitoring mode of `main` does after building the map. -/
inductive MainOutcome where
  | exitNoCameras : MainOutcome
  | monitoring : Dict → MainOutcome
deriving DecidableEq

/-- `main` (monitoring mode): build the camera map; when it is empty, log
and return without entering the poll loop; otherwise enter the loop over
exactly that map. -/
def main_monitor (env : Env) : MainOutcome :=
  let m := (build_camera_map env).camera_map
  if m = [] then MainOutcome.exitNoCameras else MainOutcome.monitoring m

/-- The externally visible steps of `rebind_device`. -/
inductive RebindAction where
  | runUnbind : String → RebindAction
  | sleepSec : Nat → RebindAction
  | runBind : String → RebindAction
deriving DecidableEq

/-- Exit statuses of the two shell commands `rebind_device` spawns.  Both
`subprocess.run` calls pass `check=False`, so a nonzero status raises
nothing and the `except CalledProcessError` branch is unreachable. -/
structure SysEnv where
  unbindExit : Int
  bindExit : Int

/-- `rebind_device`: unbind (status ignored), sleep 2, bind, sleep 3,
return `True`; the statuses never influence the trace or the result. -/
def rebind_device (_sys : SysEnv) (bus_id : String) : List RebindAction × Bool :=
  ([RebindAction.runUnbind bus_id, RebindAction.sleepSec 2,
    RebindAction.runBind bus_id, RebindAction.sleepSec 3], true)

/-- The live detection a device would get this session: its fresh bus id
when the node exists and the query matches, `none` otherwise. -/
def freshOf (env : Env) (d : String) : Option String :=
  if device_exists env d then get_bus_id env d else none

/-- A full match of the bus-id pattern `\d+-[\d.]+:\d+\.\d+`. -/
def IsBusId (m : List Char) : Prop :=
  ∃ d1 c d2 d3 : List Char,
    d1 ≠ [] ∧ (∀ ch ∈ d1, ch.isDigit = true) ∧
    c ≠ [] ∧ (∀ ch ∈ c, isDotDigit ch = true) ∧
    d2 ≠ [] ∧ (∀ ch ∈ d2, ch.isDigit = true) ∧
    d3 ≠ [] ∧ (∀ ch ∈ d3, ch.isDigit = true) ∧
    m = d1 ++ '-' :: c ++ ':' :: d2 ++ '.' :: d3

/-- A match of `device=[^\s!]` starts at position `i` of `v`. -/
def IsDevTokAt (v : List Char) (i : Nat) : Prop :=
  ∃ ch rest, v.drop i = devEq ++ ch :: rest ∧ isTokChar ch = true

/-- The invariant of the `build_camera_map` loop after the devices `P`
have been processed, starting from an empty map, the loaded cache and a
clear flag: every cache entry is the fresh value for attempted
fresh-resolvable devices and the loaded value otherwise; the map holds
fresh values, cache fallbacks for missing devices, and nothing else; the
flag records whether some attempted fresh value differed from the loaded
cache; the attempts are exactly `P`. -/
def Inv (env : Env) (P : List String) (s : BState) : Prop :=
  (∀ k, Dict.get? s.cache k =
    if k ∈ P ∧ (freshOf env k).isSome then freshOf env k else Dict.get? env.cache0 k)
  ∧ (∀ k, Dict.get? s.camera_map k =
    if k ∈ P then
      match freshOf env k with
      | some b => some b
      | none => if device_exists env k then none else Dict.get? env.cache0 k
    else none)
  ∧ (s.cache_updated = true ↔
      ∃ k ∈ P, ∃ b, freshOf env k = some b ∧ Dict.get? env.cache0 k ≠ some b)
  ∧ s.attempts = P

/-- A session where `/dev/video9` is configured, its node exists, the
`udevadm` output carries no bus-id token, and the cache has an entry. -/
def envC1 : Env :=
  { cfg := Except.ok (some [("camera1", "v4l2src device=/dev/video9 ! queue")])
    cache0 := [("/dev/video9", "1-2:1.0")]
    path_present := fun _ => true
    islink := fun _ => false
    realpath := fun p => p
    stat_ok := fun _ => true
    udev_out := fun _ => some "/devices/platform/nothing" }

/-- A session where `/dev/video1` is configured, its node is absent, and
the cache holds a prior entry for it. -/
def envW2 : Env :=
  { cfg := Except.ok (some [("camera1", "v4l2src device=/dev/video1 ! queue")])
    cache0 := [("/dev/video1", "1-3:1.0")]
    path_present := fun _ => false
    islink := fun _ => false
    realpath := fun p => p
    stat_ok := fun _ => false
    udev_out := fun _ => none }

/-- A session where `/dev/video0` is configured, its node exists, the
`udevadm` output carries the token `3-2:1.0`, and the cache is empty. -/
def envW3 : Env :=
  { cfg := Except.ok (some [("camera1", "v4l2src device=/dev/video0 ! queue")])
    cache0 := []
    path_present := fun _ => true
    islink := fun _ => false
    realpath := fun p => p
    stat_ok := fun _ => true
    udev_out := fun _ =>
      some "/devices/pci0000:00/0000:00:14.0/usb3/3-2/3-2:1.0/video4linux/video0" }

/-! ## Dictionary lemmas -/

theorem Dict.get?_insert_self (d : Dict) (k v : String) :
    Dict.get? (Dict.insert d k v) k = some v := by
  induction d with
  | nil => simp [Dict.insert, Dict.get?]
  | cons kv rest ih =>
    obtain ⟨a, b⟩ := kv
    by_cases h : a = k
    · subst h; simp [Dict.insert, Dict.get?]
    · simp [Dict.insert, Dict.get?, h, ih]

theorem Dict.get?_insert_ne (d : Dict) (k v k2 : String) (h : k2 ≠ k) :
    Dict.get? (Dict.insert d k v) k2 = Dict.get? d k2 := by
  have hk2 : ¬ k = k2 := fun hk => h hk.symm
  induction d with
  | nil =>
    simp only [Dict.insert, Dict.get?]
    rw [if_neg hk2]
  | cons kv rest ih =>
    obtain ⟨a, b⟩ := kv
    simp only [Dict.insert]
    by_cases hak : a = k
    · rw [if_pos hak]
      simp only [Dict.get?]
      have ha2 : ¬ a = k2 := by rw [hak]; exact hk2
      rw [if_neg hk2, if_neg ha2]
    · rw [if_neg hak]
      simp only [Dict.get?]
      by_cases hak2 : a = k2
      · rw [if_pos hak2, if_pos hak2]
      · rw [if_neg hak2, if_neg hak2, ih]

/-! ## Runs of characters -/

theorem takeWhile_run (p : Char → Bool) (a : List Char) (b : Char) (r : List Char)
    (ha : ∀ x ∈ a, p x = true) (hb : p b = false) :
    (a ++ b :: r).takeWhile p = a ∧ (a ++ b :: r).dropWhile p = b :: r := by
  induction a with
  | nil => simp [List.takeWhile_cons, List.dropWhile_cons, hb]
  | cons x xs ih =>
    have hx : p x = true := ha x (by simp)
    have ih2 := ih fun y hy => ha y (by simp [hy])
    simp [List.takeWhile_cons, List.dropWhile_cons, hx, ih2.1, ih2.2]

theorem head?_dropWhile (p : Char → Bool) (l : List Char) (ch : Char)
    (h : (l.dropWhile p).head? = some ch) : p ch = false := by
  induction l with
  | nil => simp [List.dropWhile] at h
  | cons x xs ih =>
    rw [List.dropWhile_cons] at h
    by_cases hx : p x = true
    · rw [if_pos hx] at h; exact ih h
    · rw [if_neg hx] at h
      simp only [List.head?_cons, Option.some.injEq] at h
      rw [← h]
      exact Bool.eq_false_iff.mpr hx

/-! ## The bus-id pattern matcher -/

theorem matchBusIdAt_sound (s m : List Char) (h : matchBusIdAt s = some m) :
    IsBusId m ∧ m <+: s := by
  simp only [matchBusIdAt] at h
  split at h
  · exact absurd h (by simp)
  · split at h
    · split at h
      · exact absurd h (by simp)
      · split at h
        · split at h
          · exact absurd h (by simp)
          · split at h
            · split at h
              · exact absurd h (by simp)
              · rename_i hne1 r1 r2 heq1 hne2 r3 r4 heq2 hne3 r5 r6 heq3 hne4
                have hm := Option.some.inj h
                subst hm
                refine ⟨⟨s.takeWhile Char.isDigit, r2.takeWhile isDotDigit,
                    r4.takeWhile Char.isDigit, r6.takeWhile Char.isDigit,
                    ?_, ?_, ?_, ?_, ?_, ?_, ?_, ?_, rfl⟩,
                  r6.dropWhile Char.isDigit, ?_⟩
                · exact fun hnil => hne1 (by simp [hnil])
                · exact fun ch hch => List.mem_takeWhile_imp hch
                · exact fun hnil => hne2 (by simp [hnil])
                · exact fun ch hch => List.mem_takeWhile_imp hch
                · exact fun hnil => hne3 (by simp [hnil])
                · exact fun ch hch => List.mem_takeWhile_imp hch
                · exact fun hnil => hne4 (by simp [hnil])
                · exact fun ch hch => List.mem_takeWhile_imp hch
                · have e1 := (List.takeWhile_append_dropWhile Char.isDigit s).symm
                  rw [heq1] at e1
                  have e2 := (List.takeWhile_append_dropWhile isDotDigit r2).symm
                  rw [heq2] at e2
                  have e3 := (List.takeWhile_append_dropWhile Char.isDigit r4).symm
                  rw [heq3] at e3
                  have e4 : r6 = r6.takeWhile Char.isDigit ++ r6.dropWhile Char.isDigit :=
                    (List.takeWhile_append_dropWhile Char.isDigit r6).symm
                  conv_rhs => rw [e1, e2, e3, e4]
                  simp [List.append_assoc]
            · exact absurd h (by simp)
        · exact absurd h (by simp)
    · exact absurd h (by simp)

theorem matchBusIdAt_isSome (s t : List Char) (ht : IsBusId t) (hp : t <+: s) :
    (matchBusIdAt s).isSome = true := by
  obtain ⟨d1, c, d2, d3, h1, h2, h3, h4, h5, h6, h7, h8, rfl⟩ := ht
  obtain ⟨rest, rfl⟩ := hp
  obtain ⟨ch, tl, rfl⟩ : ∃ ch tl, d3 = ch :: tl := by
    cases d3 with
    | nil => exact absurd rfl h7
    | cons ch tl => exact ⟨ch, tl, rfl⟩
  have hch : ch.isDigit = true := h8 ch (by simp)
  have hd1 : d1.isEmpty = false := by
    cases d1 with
    | nil => exact absurd rfl h1
    | cons x xs => rfl
  have hc : c.isEmpty = false := by
    cases c with
    | nil => exact absurd rfl h3
    | cons x xs => rfl
  have hd2 : d2.isEmpty = false := by
    cases d2 with
    | nil => exact absurd rfl h5
    | cons x xs => rfl
  simp only [List.append_assoc, List.cons_append]
  have t1 := takeWhile_run Char.isDigit d1 '-' (c ++ ':' :: (d2 ++ '.' :: ch :: (tl ++ rest)))
    h2 (by decide)
  have t2 := takeWhile_run isDotDigit c ':' (d2 ++ '.' :: ch :: (tl ++ rest)) h4 (by decide)
  have t3 := takeWhile_run Char.isDigit d2 '.' (ch :: (tl ++ rest)) h6 (by decide)
  simp only [matchBusIdAt, t1.1, t1.2, t2.1, t2.2, t3.1, t3.2, hd1, hc, hd2,
    List.takeWhile_cons, hch]
  simp

/-! ## Leftmost search -/

theorem searchWith_eq_some (f : List Char → Option (List Char)) (s m : List Char)
    (h : searchWith f s = some m) :
    ∃ i, f (s.drop i) = some m ∧ ∀ j, j < i → f (s.drop j) = none := by
  induction s with
  | nil => simp [searchWith] at h
  | cons a rest ih =>
    rw [searchWith] at h
    cases hm : f (a :: rest) with
    | some m2 =>
      rw [hm] at h
      obtain rfl := Option.some.inj h
      exact ⟨0, hm, fun j hj => absurd hj (Nat.not_lt_zero j)⟩
    | none =>
      rw [hm] at h
      obtain ⟨i, hi, hj⟩ := ih h
      refine ⟨i + 1, hi, fun j hlt => ?_⟩
      cases j with
      | zero => exact hm
      | succ j2 => exact hj j2 (Nat.lt_of_succ_lt_succ hlt)

theorem searchWith_eq_none (f : List Char → Option (List Char)) (hnil : f [] = none)
    (s : List Char) (h : searchWith f s = none) :
    ∀ i, f (s.drop i) = none := by
  induction s with
  | nil => intro i; simpa using hnil
  | cons a rest ih =>
    rw [searchWith] at h
    cases hm : f (a :: rest) with
    | some m2 => rw [hm] at h; exact absurd h (by simp)
    | none =>
      rw [hm] at h
      intro i
      cases i with
      | zero => exact hm
      | succ j => exact ih h j

theorem infix_iff_prefix_drop (t s : List Char) : t <:+: s ↔ ∃ i, t <+: s.drop i := by
  constructor
  · rintro ⟨u, v, rfl⟩
    refine ⟨u.length, v, ?_⟩
    rw [List.append_assoc, List.drop_left]
  · rintro ⟨i, r, hr⟩
    exact ⟨s.take i, r, by rw [List.append_assoc, hr, List.take_append_drop]⟩

/-! ## The device-path pattern matcher -/

theorem matchDeviceAt_nil : matchDeviceAt [] = none := rfl

theorem matchBusIdAt_nil : matchBusIdAt [] = none := rfl

theorem matchDeviceAt_sound (s p : List Char) (h : matchDeviceAt s = some p) :
    p ≠ [] ∧ (∀ ch ∈ p, isTokChar ch = true)
    ∧ ∃ r, s = devEq ++ (p ++ r) ∧ ∀ ch, r.head? = some ch → isTokChar ch = false := by
  simp only [matchDeviceAt] at h
  split at h
  · rename_i hpre
    split at h
    · exact absurd h (by simp)
    · rename_i hne
      obtain rfl := Option.some.inj h
      obtain ⟨u, hu⟩ := List.isPrefixOf_iff_prefix.mp hpre
      have hdrop : s.drop 7 = u := by
        rw [← hu]
        exact List.drop_left devEq u
      refine ⟨fun hnil => hne (by simp [hnil]),
        fun ch hch => List.mem_takeWhile_imp hch,
        (s.drop 7).dropWhile isTokChar, ?_, fun ch hch => head?_dropWhile _ _ _ hch⟩
      rw [List.takeWhile_append_dropWhile, hdrop, ← hu]
  · exact absurd h (by simp)

theorem matchDeviceAt_isSome (s : List Char) (ch : Char) (rest : List Char)
    (hs : s = devEq ++ ch :: rest) (hch : isTokChar ch = true) :
    (matchDeviceAt s).isSome = true := by
  subst hs
  have hpre : devEq.isPrefixOf (devEq ++ ch :: rest) = true :=
    List.isPrefixOf_iff_prefix.mpr ⟨ch :: rest, rfl⟩
  have hdrop : (devEq ++ ch :: rest).drop 7 = ch :: rest := List.drop_left devEq _
  simp only [matchDeviceAt, hpre, hdrop, List.takeWhile_cons, hch]
  simp

/-! ## Configuration extraction -/

theorem parse_foldl_eq (entries : List (String × String)) (acc : List String) :
    entries.foldl (fun devices kv =>
        if startsWithCamera kv.1 then
          match searchDeviceL kv.2.toList with
          | some p => devices ++ [String.mk p]
          | none => devices
        else devices) acc
      = acc ++ entries.filterMap (fun kv =>
          if startsWithCamera kv.1 then
            (searchDeviceL kv.2.toList).map fun p => String.mk p
          else none) := by
  induction entries generalizing acc with
  | nil => simp
  | cons kv rest ih =>
    rw [List.foldl_cons, List.filterMap_cons]
    by_cases hk : startsWithCamera kv.1
    · rw [if_pos hk, if_pos hk]
      cases hs : searchDeviceL kv.2.toList with
      | some p => rw [ih]; simp
      | none => rw [ih]; simp
    · rw [if_neg hk, if_neg hk, ih]

/-! ## The build loop invariant -/

theorem resolveStep_fresh_new (env : Env) (s : BState) (d b : String)
    (hex : device_exists env d = true) (hb : get_bus_id env d = some b)
    (hne : Dict.get? s.cache d ≠ some b) :
    resolveStep env s d =
      ⟨Dict.insert s.camera_map d b, Dict.insert s.cache d b, true,
        s.attempts ++ [d]⟩ := by
  simp [resolveStep, hex, hb, hne]

theorem resolveStep_fresh_same (env : Env) (s : BState) (d b : String)
    (hex : device_exists env d = true) (hb : get_bus_id env d = some b)
    (heq : Dict.get? s.cache d = some b) :
    resolveStep env s d =
      ⟨Dict.insert s.camera_map d b, s.cache, s.cache_updated,
        s.attempts ++ [d]⟩ := by
  simp [resolveStep, hex, hb, heq]

theorem resolveStep_fresh_fail (env : Env) (s : BState) (d : String)
    (hex : device_exists env d = true) (hb : get_bus_id env d = none) :
    resolveStep env s d = { s with attempts := s.attempts ++ [d] } := by
  simp [resolveStep, hex, hb]

theorem resolveStep_missing_cached (env : Env) (s : BState) (d b : String)
    (hex : device_exists env d = false) (hc : Dict.get? s.cache d = some b) :
    resolveStep env s d =
      { s with camera_map := Dict.insert s.camera_map d b,
               attempts := s.attempts ++ [d] } := by
  simp [resolveStep, hex, hc]

theorem resolveStep_missing_uncached (env : Env) (s : BState) (d : String)
    (hex : device_exists env d = false) (hc : Dict.get? s.cache d = none) :
    resolveStep env s d = { s with attempts := s.attempts ++ [d] } := by
  simp [resolveStep, hex, hc]

theorem mem_snoc_ne (P : List String) (d k : String) (hkd : k ≠ d) :
    (k ∈ P ++ [d]) ↔ (k ∈ P) := by simp [hkd]

theorem exists_mem_snoc (P : List String) (d : String) (C : String → Prop) :
    (∃ k ∈ P ++ [d], C k) ↔ (∃ k ∈ P, C k) ∨ C d := by
  simp [or_and_right, exists_or]

theorem inv_init (env : Env) : Inv env [] ⟨[], env.cache0, false, []⟩ := by
  refine ⟨fun k => ?_, fun k => ?_, ?_, rfl⟩
  · simp
  · simp [Dict.get?]
  · simp

theorem inv_step (env : Env) (P : List String) (s : BState) (d : String)
    (h : Inv env P s) : Inv env (P ++ [d]) (resolveStep env s d) := by
  obtain ⟨hc, hm, hu, ha⟩ := h
  by_cases hex : device_exists env d = true
  · cases hb : get_bus_id env d with
    | some b =>
      have hfresh : freshOf env d = some b := by simp [freshOf, hex, hb]
      by_cases hcd : Dict.get? s.cache d = some b
      · rw [resolveStep_fresh_same env s d b hex hb hcd]
        refine ⟨fun k => ?_, fun k => ?_, ?_, by rw [ha]⟩
        · by_cases hkd : k = d
          · subst hkd
            rw [if_pos ⟨by simp, by simp [hfresh]⟩, hfresh]
            exact hcd
          · rw [hc k]
            simp only [mem_snoc_ne P d k hkd]
        · by_cases hkd : k = d
          · subst hkd
            rw [Dict.get?_insert_self, if_pos (by simp), hfresh]
          · rw [Dict.get?_insert_ne _ _ _ _ hkd, hm k]
            simp only [mem_snoc_ne P d k hkd]
        · rw [hu, exists_mem_snoc]
          constructor
          · exact Or.inl
          · rintro (hP | ⟨b2, hb2, hne2⟩)
            · exact hP
            · rw [hfresh] at hb2
              obtain rfl := Option.some.inj hb2
              by_cases hdP : d ∈ P ∧ (freshOf env d).isSome
              · exact ⟨d, hdP.1, b, hfresh, hne2⟩
              · rw [hc d, if_neg hdP] at hcd
                exact absurd hcd hne2
      · rw [resolveStep_fresh_new env s d b hex hb hcd]
        have hdP : ¬ (d ∈ P ∧ (freshOf env d).isSome) := by
          rintro ⟨hdP, _⟩
          rw [hc d, if_pos ⟨hdP, by simp [hfresh]⟩, hfresh] at hcd
          exact hcd rfl
        have hc0 : Dict.get? env.cache0 d ≠ some b := by
          rw [hc d, if_neg hdP] at hcd
          exact hcd
        refine ⟨fun k => ?_, fun k => ?_, ?_, by rw [ha]⟩
        · by_cases hkd : k = d
          · subst hkd
            rw [Dict.get?_insert_self, if_pos ⟨by simp, by simp [hfresh]⟩, hfresh]
          · rw [Dict.get?_insert_ne _ _ _ _ hkd, hc k]
            simp only [mem_snoc_ne P d k hkd]
        · by_cases hkd : k = d
          · subst hkd
            rw [Dict.get?_insert_self, if_pos (by simp), hfresh]
          · rw [Dict.get?_insert_ne _ _ _ _ hkd, hm k]
            simp only [mem_snoc_ne P d k hkd]
        · rw [exists_mem_snoc]
          constructor
          · exact fun _ => Or.inr ⟨b, hfresh, hc0⟩
          · exact fun _ => rfl
    | none =>
      have hfresh : freshOf env d = none := by simp [freshOf, hex, hb]
      rw [resolveStep_fresh_fail env s d hex hb]
      refine ⟨fun k => ?_, fun k => ?_, ?_, by rw [ha]⟩
      · rw [hc k]
        by_cases hkd : k = d
        · subst hkd
          simp [hfresh]
        · simp only [mem_snoc_ne P d k hkd]
      · rw [hm k]
        by_cases hkd : k = d
        · subst hkd
          simp [hfresh, hex]
        · simp only [mem_snoc_ne P d k hkd]
      · rw [hu, exists_mem_snoc]
        constructor
        · exact Or.inl
        · rintro (hP | ⟨b2, hb2, _⟩)
          · exact hP
          · rw [hfresh] at hb2
            exact absurd hb2 (by simp)
  · have hexf : device_exists env d = false := by simpa using hex
    have hfresh : freshOf env d = none := by simp [freshOf, hexf]
    have hc0 : Dict.get? s.cache d = Dict.get? env.cache0 d := by
      rw [hc d]
      by_cases hdP : d ∈ P
      · simp [hfresh]
      · simp [hdP]
    cases hcd : Dict.get? s.cache d with
    | some b =>
      rw [resolveStep_missing_cached env s d b hexf hcd]
      rw [hcd] at hc0
      refine ⟨fun k => ?_, fun k => ?_, ?_, by rw [ha]⟩
      · rw [hc k]
        by_cases hkd : k = d
        · subst hkd
          simp [hfresh]
        · simp only [mem_snoc_ne P d k hkd]
      · by_cases hkd : k = d
        · subst hkd
          rw [Dict.get?_insert_self, if_pos (by simp), hfresh]
          simp [hexf, hc0.symm]
        · rw [Dict.get?_insert_ne _ _ _ _ hkd, hm k]
          simp only [mem_snoc_ne P d k hkd]
      · rw [hu, exists_mem_snoc]
        constructor
        · exact Or.inl
        · rintro (hP | ⟨b2, hb2, _⟩)
          · exact hP
          · rw [hfresh] at hb2
            exact absurd hb2 (by simp)
    | none =>
      rw [resolveStep_missing_uncached env s d hexf hcd]
      rw [hcd] at hc0
      refine ⟨fun k => ?_, fun k => ?_, ?_, by rw [ha]⟩
      · rw [hc k]
        by_cases hkd : k = d
        · subst hkd
          simp [hfresh]
        · simp only [mem_snoc_ne P d k hkd]
      · rw [hm k]
        by_cases hkd : k = d
        · subst hkd
          simp [hfresh, hexf, hc0.symm]
        · simp only [mem_snoc_ne P d k hkd]
      · rw [hu, exists_mem_snoc]
        constructor
        · exact Or.inl
        · rintro (hP | ⟨b2, hb2, _⟩)
          · exact hP
          · rw [hfresh] at hb2
            exact absurd hb2 (by simp)

theorem inv_fold (env : Env) (l : List String) (P : List String) (s : BState)
    (h : Inv env P s) : Inv env (P ++ l) (l.foldl (resolveStep env) s) := by
  induction l generalizing P s with
  | nil => simpa using h
  | cons d rest ih =>
    rw [List.foldl_cons]
    have h3 := ih (P ++ [d]) _ (inv_step env P s d h)
    simpa [List.append_assoc] using h3

theorem build_inv (env : Env) :
    Inv env (parse_camera_devices env.cfg) (build_camera_map env) := by
  have h := inv_fold env (parse_camera_devices env.cfg) [] ⟨[], env.cache0, false, []⟩
    (inv_init env)
  simpa [build_camera_map] using h

/-! ## Claims -/

/-- C1, counterexample: in `envC1` the configured path `/dev/video9`
exists but bus-id detection finds no token, while a cache entry for it
exists.  The claim's criterion (live detection succeeded OR a cache entry
existed) holds, yet `build_camera_map` leaves the path out of the map —
the cache is only consulted when the device node is absent. -/
theorem camera_map_inclusion_cex :
    ¬ (((Dict.get? (build_camera_map envC1).camera_map "/dev/video9").isSome = true) ↔
      ("/dev/video9" ∈ parse_camera_devices envC1.cfg ∧
        ((device_exists envC1 "/dev/video9" = true ∧
            (get_bus_id envC1 "/dev/video9").isSome = true)
          ∨ (Dict.get? envC1.cache0 "/dev/video9").isSome = true))) := by
  decide

/-- C1 (amended): a configured logical path is in the final Camera Map
iff either live detection succeeded (node exists and `get_bus_id`
returned an identifier), or the node was absent and a cache entry
existed; and the build attempts exactly the configured paths, in order. -/
theorem camera_map_inclusion (env : Env) (p : String) :
    (((Dict.get? (build_camera_map env).camera_map p).isSome = true) ↔
      (p ∈ parse_camera_devices env.cfg ∧
        ((device_exists env p = true ∧ (get_bus_id env p).isSome = true)
          ∨ (device_exists env p = false ∧ (Dict.get? env.cache0 p).isSome = true))))
    ∧ (build_camera_map env).attempts = parse_camera_devices env.cfg := by
  obtain ⟨hc, hm, hu, ha⟩ := build_inv env
  refine ⟨?_, ha⟩
  rw [hm p]
  by_cases hmem : p ∈ parse_camera_devices env.cfg
  · rw [if_pos hmem]
    by_cases hex : device_exists env p = true
    · have hfr : freshOf env p = get_bus_id env p := by simp [freshOf, hex]
      rw [hfr]
      cases hb : get_bus_id env p with
      | some b => simp [hmem, hex]
      | none => simp [hmem, hex]
    · have hexf : device_exists env p = false := by simpa using hex
      have hfr : freshOf env p = none := by simp [freshOf, hexf]
      rw [hfr]
      simp [hmem, hexf]
  · rw [if_neg hmem]
    simp [hmem]

/-- C2: a configured path whose device node is absent but which has a
prior cache entry gets the cached bus id, unchanged, into the Camera Map;
its cache entry is not mutated, and the resolve step for such a path
never touches the cache nor the `cache_updated` flag. -/
theorem cache_fallback (env : Env) (p b : String)
    (hmem : p ∈ parse_camera_devices env.cfg)
    (hex : device_exists env p = false)
    (hb : Dict.get? env.cache0 p = some b) :
    Dict.get? (build_camera_map env).camera_map p = some b
    ∧ Dict.get? (build_camera_map env).cache p = some b
    ∧ (∀ s : BState, (resolveStep env s p).cache = s.cache
        ∧ (resolveStep env s p).cache_updated = s.cache_updated) := by
  obtain ⟨hc, hm, _, _⟩ := build_inv env
  have hfr : freshOf env p = none := by simp [freshOf, hex]
  refine ⟨?_, ?_, fun s => ?_⟩
  · rw [hm p, if_pos hmem, hfr]
    simp [hex, hb]
  · rw [hc p, hfr]
    simp [hb]
  · cases hcs : Dict.get? s.cache p with
    | some b2 =>
      rw [resolveStep_missing_cached env s p b2 hex hcs]
      exact ⟨rfl, rfl⟩
    | none =>
      rw [resolveStep_missing_uncached env s p hex hcs]
      exact ⟨rfl, rfl⟩

/-- C2 witness: in `envW2` the absent `/dev/video1` resolves to its
cached bus id `1-3:1.0` with no cache mutation. -/
theorem cache_fallback_witness :
    Dict.get? (build_camera_map envW2).camera_map "/dev/video1" = some "1-3:1.0"
    ∧ Dict.get? (build_camera_map envW2).cache "/dev/video1" = some "1-3:1.0"
    ∧ (∀ s : BState, (resolveStep envW2 s "/dev/video1").cache = s.cache
        ∧ (resolveStep envW2 s "/dev/video1").cache_updated = s.cache_updated) :=
  cache_fallback envW2 "/dev/video1" "1-3:1.0" (by decide) (by decide) (by decide)

/-- C3: a configured path whose node exists and whose fresh bus id
differs from (or is absent from) the loaded cache gets the new bus id
stored in the cache, the `cache_updated` flag set, and the updated cache
persisted through `save_cache` before `build_camera_map` returns. -/
theorem cache_refresh (env : Env) (p b : String)
    (hmem : p ∈ parse_camera_devices env.cfg)
    (hex : device_exists env p = true)
    (hb : get_bus_id env p = some b)
    (hdiff : Dict.get? env.cache0 p ≠ some b) :
    Dict.get? (build_camera_map env).cache p = some b
    ∧ (build_camera_map env).cache_updated = true
    ∧ build_saves env = [save_cache (build_camera_map env).cache] := by
  obtain ⟨hc, _, hu, _⟩ := build_inv env
  have hfr : freshOf env p = some b := by simp [freshOf, hex, hb]
  have hflag : (build_camera_map env).cache_updated = true :=
    hu.mpr ⟨p, hmem, b, hfr, hdiff⟩
  refine ⟨?_, hflag, ?_⟩
  · rw [hc p, if_pos ⟨hmem, by simp [hfr]⟩, hfr]
  · simp [build_saves, hflag]

/-- C3 witness: in `envW3` the present `/dev/video0` detects `3-2:1.0`,
absent from the empty cache, and the cache is stored and saved. -/
theorem cache_refresh_witness :
    Dict.get? (build_camera_map envW3).cache "/dev/video0" = some "3-2:1.0"
    ∧ (build_camera_map envW3).cache_updated = true
    ∧ build_saves envW3 = [save_cache (build_camera_map envW3).cache] :=
  cache_refresh envW3 "/dev/video0" "3-2:1.0" (by decide) (by decide) (by decide)
    (by decide)

/-- C4: the bus-id extraction returns a substring matching the pattern
digits, `-`, digits/dots, `:`, digits, `.`, digits, at the first position
where any such match starts; a string with no matching segment returns no
match.  The spec's example canonical path yields `3-2:1.0`. -/
theorem bus_id_extraction :
    (∀ s m : List Char, searchBusIdL s = some m →
      IsBusId m ∧ ∃ i, m <+: s.drop i ∧ ∀ j, j < i → ∀ t, IsBusId t → ¬ t <+: s.drop j)
    ∧ (∀ s : List Char, searchBusIdL s = none → ∀ t, IsBusId t → ¬ t <:+: s)
    ∧ searchBusIdL "/devices/pci0000:00/0000:00:14.0/usb3/3-2/3-2:1.0/video4linux/video0".toList
        = some "3-2:1.0".toList
    ∧ searchBusIdL "/devices/platform/nothing".toList = none := by
  refine ⟨?_, ?_, by decide, by decide⟩
  · intro s m h
    obtain ⟨i, hi, hbefore⟩ := searchWith_eq_some matchBusIdAt s m h
    obtain ⟨hbus, hpre⟩ := matchBusIdAt_sound _ m hi
    refine ⟨hbus, i, hpre, fun j hj t ht hp => ?_⟩
    have hs := matchBusIdAt_isSome _ t ht hp
    rw [hbefore j hj] at hs
    exact absurd hs (by simp)
  · intro s h t ht hinf
    obtain ⟨i, hp⟩ := (infix_iff_prefix_drop t s).mp hinf
    have hs := matchBusIdAt_isSome _ t ht hp
    rw [searchWith_eq_none matchBusIdAt matchBusIdAt_nil s h i] at hs
    exact absurd hs (by simp)

/-- C5: the Configuration Reader takes exactly the plugin entries whose
key starts with `camera`, in order; from each value it extracts the
`device=<path>` capture — a maximal nonempty run not containing
whitespace or `!`, at the first position where any such token starts;
entries without a token are skipped; a failed read or parse, or a missing
section, yields the empty sequence.  The spec's example entry yields
`/dev/video0`. -/
theorem config_extraction :
    parse_camera_devices (Except.error ()) = []
    ∧ parse_camera_devices (Except.ok none) = []
    ∧ (∀ entries, parse_camera_devices (Except.ok (some entries)) =
        entries.filterMap fun kv =>
          if startsWithCamera kv.1 then
            (searchDeviceL kv.2.toList).map fun p => String.mk p
          else none)
    ∧ (∀ v p, searchDeviceL v = some p →
        p ≠ [] ∧ (∀ ch ∈ p, isTokChar ch = true)
        ∧ ∃ i r, v.drop i = devEq ++ (p ++ r)
            ∧ (∀ ch, r.head? = some ch → isTokChar ch = false)
            ∧ ∀ j, j < i → ¬ IsDevTokAt v j)
    ∧ (∀ v, searchDeviceL v = none → ∀ i, ¬ IsDevTokAt v i)
    ∧ parse_camera_devices
        (Except.ok (some [("camera1", "v4l2src device=/dev/video0 ! queue")]))
        = ["/dev/video0"] := by
  refine ⟨rfl, rfl, ?_, ?_, ?_, by decide⟩
  · intro entries
    simpa [parse_camera_devices] using parse_foldl_eq entries []
  · intro v p h
    obtain ⟨i, hi, hbefore⟩ := searchWith_eq_some matchDeviceAt v p h
    obtain ⟨hne, htok, r, hr, hhead⟩ := matchDeviceAt_sound _ p hi
    refine ⟨hne, htok, i, r, hr, hhead, fun j hj hdev => ?_⟩
    obtain ⟨ch, rest, hd, hch⟩ := hdev
    have hs := matchDeviceAt_isSome (v.drop j) ch rest hd hch
    rw [hbefore j hj] at hs
    exact absurd hs (by simp)
  · intro v h i hdev
    obtain ⟨ch, rest, hd, hch⟩ := hdev
    have hs := matchDeviceAt_isSome (v.drop i) ch rest hd hch
    rw [searchWith_eq_none matchDeviceAt matchDeviceAt_nil v h i] at hs
    exact absurd hs (by simp)

/-- C6: `rebind_device` issues the unbind, sleeps 2 seconds, issues the
bind, sleeps 3 seconds, in that order, and reports the attempt as a
boolean; the shell exit statuses never influence the trace or the result
(both commands run with `check=False`, so no status escalates). -/
theorem rebind_sequence (sys sys2 : SysEnv) (bus_id : String) :
    rebind_device sys bus_id =
      ([RebindAction.runUnbind bus_id, RebindAction.sleepSec 2,
        RebindAction.runBind bus_id, RebindAction.sleepSec 3], true)
    ∧ rebind_device sys bus_id = rebind_device sys2 bus_id :=
  ⟨rfl, rfl⟩

/-- C7: `device_exists` is a total boolean check: it is true exactly when
the path is present, a symlink's resolved target is present, and the
final stat probe succeeds; every OS-level failure is folded into a
`false` result rather than an exception. -/
theorem exists_check_safe (env : Env) (p : String) :
    device_exists env p = true ↔
      (env.path_present p = true
        ∧ (env.islink p = true → env.path_present (env.realpath p) = true)
        ∧ env.stat_ok p = true) := by
  rw [device_exists]
  by_cases h1 : env.path_present p <;> by_cases h2 : env.islink p <;>
    by_cases h3 : env.path_present (env.realpath p) <;>
    by_cases h4 : env.stat_ok p <;> simp [h1, h2, h3, h4]

/-- C8: the monitoring mode exits without entering the poll loop exactly
when the built Camera Map is empty, and in particular whenever the
configuration yields no devices. -/
theorem startup_empty_map_exits (env : Env) :
    (main_monitor env = MainOutcome.exitNoCameras ↔
      (build_camera_map env).camera_map = [])
    ∧ (parse_camera_devices env.cfg = [] →
        main_monitor env = MainOutcome.exitNoCameras) := by
  constructor
  · by_cases h : (build_camera_map env).camera_map = [] <;> simp [main_monitor, h]
  · intro hdev
    have hempty : (build_camera_map env).camera_map = [] := by
      rw [build_camera_map, hdev]
      rfl
    simp [main_monitor, hempty]

/-- C9: no key of the loaded cache is ever deleted: after
`build_camera_map` every loaded key still has some value in the cache,
and in any contents persisted through `save_cache`. -/
theorem cache_never_deletes (env : Env) (k v : String)
    (h : Dict.get? env.cache0 k = some v) :
    (Dict.get? (build_camera_map env).cache k).isSome = true
    ∧ ∀ d ∈ build_saves env, (Dict.get? d k).isSome = true := by
  obtain ⟨hc, _, _, _⟩ := build_inv env
  have hmain : (Dict.get? (build_camera_map env).cache k).isSome = true := by
    rw [hc k]
    by_cases hcond : k ∈ parse_camera_devices env.cfg ∧ (freshOf env k).isSome
    · rw [if_pos hcond]
      exact hcond.2
    · rw [if_neg hcond, h]
      rfl
  refine ⟨hmain, fun d hd => ?_⟩
  by_cases hupd : (build_camera_map env).cache_updated = true
  · simp only [build_saves, hupd, if_true, List.mem_singleton] at hd
    rw [hd]
    exact hmain
  · simp [build_saves, hupd] at hd

/-- C9 witness: the loaded entry for `/dev/video1` in `envW2` survives
the build and any persisted contents. -/
theorem cache_never_deletes_witness :
    (Dict.get? (build_camera_map envW2).cache "/dev/video1").isSome = true
    ∧ ∀ d ∈ build_saves envW2, (Dict.get? d "/dev/video1").isSome = true :=
  cache_never_deletes envW2 "/dev/video1" "1-3:1.0" (by decide)

/-- C10: `build_camera_map` writes the cache file at most once, and not
at all when every configured device either yields no fresh bus id or
yields one equal to its loaded cache entry. -/
theorem save_at_most_once (env : Env) :
    (build_saves env).length ≤ 1
    ∧ ((∀ d ∈ parse_camera_devices env.cfg, ∀ b, device_exists env d = true →
          get_bus_id env d = some b → Dict.get? env.cache0 d = some b) →
        build_saves env = []) := by
  obtain ⟨_, _, hu, _⟩ := build_inv env
  constructor
  · by_cases hupd : (build_camera_map env).cache_updated = true <;>
      simp [build_saves, hupd]
  · intro hstable
    cases hflag : (build_camera_map env).cache_updated with
    | false => simp [build_saves, hflag]
    | true =>
      obtain ⟨k, hk, b, hfr, hneq⟩ := hu.mp hflag
      have hex : device_exists env k = true := by
        by_contra hexn
        have hexf : device_exists env k = false := by simpa using hexn
        simp [freshOf, hexf] at hfr
      have hgbi : get_bus_id env k = some b := by
        simpa [freshOf, hex] using hfr
      exact absurd (hstable k hk b hex hgbi) hneq

end CameraWatchdog
